import Mathlib

/-!
Verification development for the storefront pricing and order-composition
logic: option parsing, price resolution, cart line matching, coupon
evaluation and order composition, embedded shallowly from the TypeScript
source (ProductDetail, Cart, Checkout pages).  JavaScript numbers are
modelled as rationals together with an explicit NaN marker; JavaScript
values (as they occur in the jsonb columns and parsed JSON) are modelled
by the inductive type JsVal.
-/

namespace Storefront

/-- A JavaScript number: either NaN or an actual (rational) value. -/
inductive JsNum where
  | nan : JsNum
  | val (q : ℚ) : JsNum
deriving DecidableEq

/-- A JavaScript value as it can appear in a jsonb column or as the result
of JSON.parse: null, undefined, boolean, number, string, array, object. -/
inductive JsVal where
  | null : JsVal
  | undefined : JsVal
  | bool (b : Bool) : JsVal
  | num (n : JsNum) : JsVal
  | str (s : String) : JsVal
  | arr (xs : List JsVal) : JsVal
  | obj (fields : List (String × JsVal)) : JsVal

/-- JavaScript truthiness: null, undefined, false, 0, NaN and the empty
string are falsy; every object and array is truthy. -/
def jsTruthy : JsVal → Bool
  | .null => false
  | .undefined => false
  | .bool b => b
  | .num .nan => false
  | .num (.val q) => q != 0
  | .str s => s != ""
  | .arr _ => true
  | .obj _ => true

/-- Property access v.k: undefined on non-objects and missing keys; for
duplicate keys the last binding wins (as JSON.parse produces). -/
def getField (v : JsVal) (k : String) : JsVal :=
  match v with
  | .obj fields =>
      match fields.reverse.find? (fun p => p.1 == k) with
      | some p => p.2
      | none => .undefined
  | _ => .undefined

/-- The JavaScript expression x ?? null. -/
def jsNullCoalesce (v : JsVal) : JsVal :=
  match v with
  | .undefined => .null
  | x => x

/-- The JavaScript expression a || b. -/
def jsOr (a b : JsVal) : JsVal := if jsTruthy a then a else b

/-- JavaScript strict equality on the values the matcher compares.
Objects and arrays compare by reference; two values of distinct
provenance are distinct references, modelled as unequal. -/
def jsStrictEq : JsVal → JsVal → Bool
  | .null, .null => true
  | .undefined, .undefined => true
  | .bool a, .bool b => a == b
  | .num (.val a), .num (.val b) => a == b
  | .str a, .str b => a == b
  | _, _ => false

/-- Whitespace for the purposes of String.prototype.trim. -/
def isWS (c : Char) : Bool := c = ' ' || c = '\t' || c = '\n' || c = '\r'

/-- Trimming on character lists: drop leading and trailing whitespace. -/
def trimChars (l : List Char) : List Char :=
  ((l.dropWhile isWS).reverse.dropWhile isWS).reverse

/-- Model of JavaScript String.prototype.trim. -/
def jsTrim (s : String) : String := ⟨trimChars s.data⟩

theorem dropWhile_dropWhile (p : Char → Bool) (l : List Char) :
    (l.dropWhile p).dropWhile p = l.dropWhile p := by
  induction l with
  | nil => rfl
  | cons c cs ih =>
      by_cases h : p c
      · simp [List.dropWhile, h, ih]
      · simp [List.dropWhile, h]

theorem dropWhile_getLast? (p : Char → Bool) (l : List Char)
    (h : l.dropWhile p ≠ []) : (l.dropWhile p).getLast? = l.getLast? := by
  induction l with
  | nil => simp at h
  | cons c cs ih =>
      by_cases hc : p c
      · have hd : (c :: cs).dropWhile p = cs.dropWhile p := by
          simp [List.dropWhile, hc]
        rw [hd] at h ⊢
        rcases Classical.em (cs = []) with rfl | hcs
        · simp [List.dropWhile] at h
        · rw [ih h]
          cases cs with
          | nil => exact absurd rfl hcs
          | cons d ds => simp [List.getLast?]
      · simp [List.dropWhile, hc]

theorem dropWhile_head_not (p : Char → Bool) (l : List Char) :
    ∀ c ∈ (l.dropWhile p).head?, p c = false := by
  induction l with
  | nil => simp [List.dropWhile]
  | cons a as ih =>
      by_cases h : p a
      · simpa [List.dropWhile, h] using ih
      · simp [List.dropWhile, h]

theorem dropWhile_eq_self_of_head (p : Char → Bool) (l : List Char)
    (h : ∀ c ∈ l.head?, p c = false) : l.dropWhile p = l := by
  cases l with
  | nil => rfl
  | cons a as =>
      have := h a (by simp)
      simp [List.dropWhile, this]

/-- trimChars is idempotent. -/
theorem trimChars_idem (l : List Char) : trimChars (trimChars l) = trimChars l := by
  have h1 : (trimChars l).dropWhile isWS = trimChars l := by
    apply dropWhile_eq_self_of_head
    intro c hc
    unfold trimChars at hc
    rcases Classical.em ((l.dropWhile isWS).reverse.dropWhile isWS = []) with hnil | hne
    · rw [hnil] at hc; simp at hc
    · rw [List.head?_reverse, dropWhile_getLast? isWS _ hne, List.getLast?_reverse] at hc
      exact dropWhile_head_not isWS l c hc
  have h2 : (trimChars l).reverse.dropWhile isWS = (trimChars l).reverse := by
    unfold trimChars
    rw [List.reverse_reverse]
    exact dropWhile_dropWhile isWS (l.dropWhile isWS).reverse
  show (((trimChars l).dropWhile isWS).reverse.dropWhile isWS).reverse = trimChars l
  rw [h1, h2, List.reverse_reverse]

/-- jsTrim is idempotent. -/
theorem jsTrim_jsTrim (s : String) : jsTrim (jsTrim s) = jsTrim s := by
  show String.mk (trimChars (trimChars s.data)) = String.mk (trimChars s.data)
  rw [trimChars_idem]

/-- The open-brace and close-brace characters. -/
def lbraceChar : Char := Char.ofNat 123

def rbraceChar : Char := Char.ofNat 125

/-- Substring test: does the second list occur inside the first? -/
def hasSubstrChars (pat : List Char) : List Char → Bool
  | [] => pat.isEmpty
  | c :: t => pat.isPrefixOf (c :: t) || hasSubstrChars pat t

/-- Model of JavaScript String.prototype.includes. -/
def jsIncludes (s pat : String) : Bool := hasSubstrChars pat.data s.data

/-- Model of JavaScript String.prototype.toUpperCase (character-wise
upper-casing; coupon codes are ASCII). -/
def jsToUpper (s : String) : String := ⟨s.data.map Char.toUpper⟩

def digitsToNat (ds : List Char) : Nat :=
  ds.foldl (fun n c => 10 * n + (c.toNat - 48)) 0

/-- Value of a decimal literal with optional sign, integer part and
fractional part. -/
def decimalValue (neg : Bool) (intPart fracPart : List Char) : ℚ :=
  let k := fracPart.length
  let n : ℤ := (digitsToNat intPart * 10 ^ k + digitsToNat fracPart : ℕ)
  let mag : ℚ := mkRat n (10 ^ k)
  if neg then -mag else mag

/-- Model of JavaScript parseFloat: skip leading whitespace, read an
optional sign and the longest decimal prefix; NaN when no digits are
read.  Exponents, hex and Infinity forms are not modelled. -/
def jsParseFloat (s : String) : JsNum :=
  let cs := s.data.dropWhile isWS
  let signed : Bool × List Char :=
    match cs with
    | '-' :: rest => (true, rest)
    | '+' :: rest => (false, rest)
    | _ => (false, cs)
  let i := signed.2.takeWhile Char.isDigit
  let cs2 := signed.2.dropWhile Char.isDigit
  let f : List Char :=
    match cs2 with
    | '.' :: rest => rest.takeWhile Char.isDigit
    | _ => []
  if i.isEmpty && f.isEmpty then .nan else .val (decimalValue signed.1 i f)

/-- Model of JavaScript Number on a string: the whole trimmed string must
be a decimal literal; the empty string converts to 0; otherwise NaN.
Exponents, hex and Infinity forms are not modelled. -/
def jsNumberOfString (s : String) : JsNum :=
  let cs := trimChars s.data
  if cs.isEmpty then .val 0
  else
    let signed : Bool × List Char :=
      match cs with
      | '-' :: rest => (true, rest)
      | '+' :: rest => (false, rest)
      | _ => (false, cs)
    let i := signed.2.takeWhile Char.isDigit
    let cs2 := signed.2.dropWhile Char.isDigit
    let fr : List Char × List Char :=
      match cs2 with
      | '.' :: r => (r.takeWhile Char.isDigit, r.dropWhile Char.isDigit)
      | _ => ([], cs2)
    if (i.isEmpty && fr.1.isEmpty) || !fr.2.isEmpty then .nan
    else .val (decimalValue signed.1 i fr.1)

/-- Model of JavaScript Number on an arbitrary value.  Array and object
coercion through toString is not modelled (treated as NaN). -/
def jsToNumber : JsVal → JsNum
  | .num n => n
  | .str s => jsNumberOfString s
  | .bool b => .val (if b then 1 else 0)
  | .null => .val 0
  | .undefined => .nan
  | .arr _ => .nan
  | .obj _ => .nan

/-- JSON string body after the opening quote; escape sequences are not
modelled (treated as parse failure). -/
def parseJStringAux : List Char → List Char → Option (String × List Char)
  | _, [] => none
  | acc, c :: rest =>
    if c == '"' then some (⟨acc.reverse⟩, rest)
    else if c == '\\' then none
    else parseJStringAux (c :: acc) rest

/-- JSON number starting at the given characters. -/
def parseJNumber (cs : List Char) : Option (JsVal × List Char) :=
  let signed : Bool × List Char :=
    match cs with
    | '-' :: rest => (true, rest)
    | _ => (false, cs)
  let i := signed.2.takeWhile Char.isDigit
  let cs2 := signed.2.dropWhile Char.isDigit
  if i.isEmpty then none
  else
    match cs2 with
    | '.' :: r =>
      let f := r.takeWhile Char.isDigit
      if f.isEmpty then none
      else some (.num (.val (decimalValue signed.1 i f)), r.dropWhile Char.isDigit)
    | _ => some (.num (.val (decimalValue signed.1 i [])), cs2)

mutual

/-- Fueled JSON value parser (model of JSON.parse).  Restricted to
objects, arrays, escape-free strings, decimal numbers, booleans and
null; anything else is a parse failure. -/
def parseJVal : Nat → List Char → Option (JsVal × List Char)
  | 0, _ => none
  | fuel + 1, cs0 =>
    let cs := cs0.dropWhile isWS
    match cs with
    | [] => none
    | c :: rest =>
      if c == lbraceChar then
        let rest2 := rest.dropWhile isWS
        match rest2 with
        | d :: rest3 =>
          if d == rbraceChar then some (.obj [], rest3)
          else
            match parseJMembers fuel rest2 with
            | some (fs, rest4) => some (.obj fs, rest4)
            | none => none
        | [] => none
      else if c == '[' then
        let rest2 := rest.dropWhile isWS
        match rest2 with
        | d :: rest3 =>
          if d == ']' then some (.arr [], rest3)
          else
            match parseJItems fuel rest2 with
            | some (xs, rest4) => some (.arr xs, rest4)
            | none => none
        | [] => none
      else if c == '"' then
        match parseJStringAux [] rest with
        | some (s, rest2) => some (.str s, rest2)
        | none => none
      else if c == 't' then
        if rest.take 3 == ['r', 'u', 'e'] then some (.bool true, rest.drop 3) else none
      else if c == 'f' then
        if rest.take 4 == ['a', 'l', 's', 'e'] then some (.bool false, rest.drop 4)
        else none
      else if c == 'n' then
        if rest.take 3 == ['u', 'l', 'l'] then some (.null, rest.drop 3) else none
      else if c == '-' || c.isDigit then parseJNumber cs
      else none

/-- Object members: key : value pairs separated by commas, terminated by
a closing brace (consumed). -/
def parseJMembers : Nat → List Char → Option (List (String × JsVal) × List Char)
  | 0, _ => none
  | fuel + 1, cs0 =>
    let cs := cs0.dropWhile isWS
    match cs with
    | '"' :: rest =>
      match parseJStringAux [] rest with
      | some (key, rest2) =>
        match rest2.dropWhile isWS with
        | ':' :: rest3 =>
          match parseJVal fuel rest3 with
          | some (v, rest4) =>
            match rest4.dropWhile isWS with
            | ',' :: rest5 =>
              match parseJMembers fuel rest5 with
              | some (fs, rest6) => some ((key, v) :: fs, rest6)
              | none => none
            | d :: rest5 =>
              if d == rbraceChar then some ([(key, v)], rest5) else none
            | [] => none
          | none => none
        | _ => none
      | none => none
    | _ => none

/-- Array items: values separated by commas, terminated by a closing
bracket (consumed). -/
def parseJItems : Nat → List Char → Option (List JsVal × List Char)
  | 0, _ => none
  | fuel + 1, cs0 =>
    match parseJVal fuel cs0 with
    | some (v, rest) =>
      match rest.dropWhile isWS with
      | ',' :: rest2 =>
        match parseJItems fuel rest2 with
        | some (xs, rest3) => some (v :: xs, rest3)
        | none => none
      | ']' :: rest2 => some ([v], rest2)
      | _ => none
    | none => none

end

/-- Model of JSON.parse: none models a thrown SyntaxError. -/
def jsonParse (s : String) : Option JsVal :=
  match parseJVal (s.data.length + 1) s.data with
  | some (v, rest) => if (rest.dropWhile isWS).isEmpty then some v else none
  | none => none

/-- Output shape of parseVariantOptions (types/products VariantOption):
label, optional image url, optional price override.  The parser only
emits non-NaN prices, so the price is a plain rational. -/
structure VariantOption where
  label : String
  image_url : Option String := none
  price : Option ℚ := none
deriving DecidableEq

/-- Output shape of measurementValues (types/products MeasurementOption).
The declared type says the label is a string, but the JSON branch of the
parser copies parsed.label verbatim, so the label is kept as a
JavaScript value; the price can be NaN (JSON branch with a truthy
non-numeric price). -/
structure MeasurementOption where
  label : JsVal
  price : Option JsNum := none

/-- The label an object-shaped value yields in the variant parser: a
string label field, trimmed; anything else gives the empty string. -/
def variantLabelOfObj (value : JsVal) : String :=
  match getField value "label" with
  | .str s => jsTrim s
  | _ => ""

/-- The image url an object-shaped value yields: a nonempty string
image_url field, else null. -/
def variantImageOfObj (value : JsVal) : Option String :=
  match getField value "image_url" with
  | .str s => if s.length > 0 then some s else none
  | _ => none

/-- The price as read off an object-shaped value before the NaN check: a
numeric price field as is, a nonempty string coerced with parseFloat,
anything else null. -/
def rawPriceOf (value : JsVal) : Option JsNum :=
  match getField value "price" with
  | .num n => some n
  | .str s => if s != "" then some (jsParseFloat s) else none
  | _ => none

/-- Keep a price only when it is a non-NaN number. -/
def keepRealPrice (p : Option JsNum) : Option ℚ :=
  match p with
  | some (.val q) => some q
  | _ => none

/-- One element of parseVariantOptions (product page lines 24-54):
falsy values are dropped; strings are trimmed and used as the label
(empty after trimming: dropped); objects take a string label (trimmed),
a nonempty-string image url, and a price coerced from a number or a
nonempty string via parseFloat, dropped when null or NaN. -/
def parseVariantOne (value : JsVal) : Option VariantOption :=
  if !jsTruthy value then none
  else
    match value with
    | .str s =>
      if jsTrim s != "" then some { label := jsTrim s } else none
    | .arr _ | .obj _ =>
      if variantLabelOfObj value = "" then none
      else some { label := variantLabelOfObj value,
                  image_url := variantImageOfObj value,
                  price := keepRealPrice (rawPriceOf value) }
    | _ => none

/-- parseVariantOptions (product page lines 21-56): non-arrays yield the
empty list; elements mapping to null are filtered out. -/
def parseVariantOptions (values : JsVal) : List VariantOption :=
  match values with
  | .arr xs => xs.filterMap parseVariantOne
  | _ => []

/-- The source's heuristic for a JSON-shaped string: starts with an open
brace or an open bracket and contains the substring label. -/
def headIs (s : String) (c : Char) : Bool := s.data.head? == some c

def jsonShaped (trimmed : String) : Bool :=
  (headIs trimmed lbraceChar || headIs trimmed '[') && jsIncludes trimmed "label"

/-- The measurement option the JSON branch returns for a parse result:
a truthy parse result with a truthy label yields that label verbatim,
plus Number(parsed.price) when parsed.price is truthy; otherwise
nothing (the branch falls through). -/
def measFromJson (parsed : JsVal) : Option MeasurementOption :=
  if jsTruthy parsed && jsTruthy (getField parsed "label") then
    some { label := getField parsed "label",
           price := if jsTruthy (getField parsed "price")
                    then some (jsToNumber (getField parsed "price")) else none }
  else none

/-- One element of measurementValues (product page lines 202-244):
falsy values are dropped; a string is trimmed (empty: dropped) and, when
JSON-shaped, JSON-parsed through measFromJson with the trimmed string
itself as the fallback label (a thrown parse and a falsy label both fall
through).  Objects take label = v.label or the empty string (falsy:
dropped) and a price from a number or nonempty string via parseFloat,
dropped when NaN. -/
def parseMeasurementOne (v : JsVal) : Option MeasurementOption :=
  if !jsTruthy v then none
  else
    match v with
    | .str s =>
      let trimmed := jsTrim s
      if trimmed = "" then none
      else if jsonShaped trimmed then
        match (jsonParse trimmed).bind measFromJson with
        | some m => some m
        | none => some { label := .str trimmed }
      else some { label := .str trimmed }
    | .arr _ | .obj _ =>
      if !jsTruthy (jsOr (getField v "label") (.str "")) then none
      else some { label := jsOr (getField v "label") (.str ""),
                  price := (keepRealPrice (rawPriceOf v)).map JsNum.val }
    | _ => none

/-- measurementValues (product page lines 196-246). -/
def measurementValues (product_measurement_values : JsVal) : List MeasurementOption :=
  match product_measurement_values with
  | .arr xs => xs.filterMap parseMeasurementOne
  | _ => []

/-- Product fields used by the pricing and order logic. -/
structure Product where
  name : String
  price_per_litre : ℚ
  offer_price_per_litre : Option ℚ := none
  measurement_title : Option String := none
deriving DecidableEq

/-- vPrice of the product page (lines 507-511): the selected variant's
price when it is a non-NaN number, else 0. -/
def vPriceOf (selectedVariant : Option VariantOption) : ℚ :=
  match selectedVariant with
  | some v => match v.price with | some q => q | none => 0
  | none => 0

/-- mPrice of the product page (lines 513-517): the selected
measurement's price when it is a non-NaN number, else 0. -/
def mPriceOf (selectedMeasurement : Option MeasurementOption) : ℚ :=
  match selectedMeasurement with
  | some m => match m.price with | some (.val q) => q | _ => 0
  | none => 0

/-- effectivePrice of the product page (lines 519-522).  The JavaScript
condition vPrice or mPrice is numeric truthiness: both zero falls back
to offer price then base price. -/
def effectivePrice (product : Product) (selectedVariant : Option VariantOption)
    (selectedMeasurement : Option MeasurementOption) : ℚ :=
  let vPrice := vPriceOf selectedVariant
  let mPrice := mPriceOf selectedMeasurement
  if vPrice != 0 || mPrice != 0 then vPrice + mPrice
  else product.offer_price_per_litre.getD product.price_per_litre

/-- A cart_items row, including the products join populated by the cart
and checkout queries (absent in the product-page query). -/
structure CartRow where
  id : Nat
  user_id : String
  product_id : String
  quantity_litres : ℚ
  variant_selection : Option VariantOption := none
  variant_price : Option ℚ := none
  measurement_label : Option String := none
  measurement_value : JsVal := .null
  measurement_price : Option ℚ := none
  products : Option Product := none

/-- itemVar of the matcher (product page line 399). -/
def itemVarLabel (item : CartRow) : Option String :=
  item.variant_selection.map (fun v => v.label)

/-- itemMeas of the matcher (product page lines 402-405): a string value
is used verbatim (no JSON unwrapping); otherwise the value's label
field, null when absent. -/
def itemMeasValue (item : CartRow) : JsVal :=
  match item.measurement_value with
  | .str s => .str s
  | v => jsNullCoalesce (getField v "label")

/-- currMeas of the matcher (product page line 407). -/
def currMeasValue (selectedMeasurement : Option MeasurementOption) : JsVal :=
  match selectedMeasurement with
  | some m => m.label
  | none => .null

/-- The matcher predicate (product page lines 398-410). -/
def cartLineMatches (selectedVariant : Option VariantOption)
    (selectedMeasurement : Option MeasurementOption) (item : CartRow) : Bool :=
  itemVarLabel item == selectedVariant.map (fun v => v.label) &&
    jsStrictEq (itemMeasValue item) (currMeasValue selectedMeasurement)

/-- The find over the user's existing lines for the product (product
page line 398). -/
def findCartMatch (existing : List CartRow) (selectedVariant : Option VariantOption)
    (selectedMeasurement : Option MeasurementOption) : Option CartRow :=
  existing.find? (cartLineMatches selectedVariant selectedMeasurement)

/-- measurement_label column inserted on add-to-cart (product page line
426): product.measurement_title or null; the empty string is falsy. -/
def measurementLabelCol (product : Product) : Option String :=
  match product.measurement_title with
  | some t => if t != "" then some t else none
  | none => none

/-- measurement_price column inserted on add-to-cart (product page line
428).  A NaN price is serialized to null by JSON stringification on the
wire, so the stored column only holds real numbers. -/
def measPriceCol (selectedMeasurement : Option MeasurementOption) : Option ℚ :=
  match selectedMeasurement with
  | some m => match m.price with | some (.val q) => some q | _ => none
  | none => none

/-- The add-to-cart mutation core (product page lines 392-430), after
the login and required-selection guards: fetch the user's lines for the
product, merge into the first matching line by incrementing its
quantity, else insert a new line snapshotting the selections and their
prices.  freshId stands for the store-generated id of an inserted
row. -/
def addToCart (store : List CartRow) (uid pid : String) (quantity : ℚ)
    (selectedVariant : Option VariantOption)
    (selectedMeasurement : Option MeasurementOption)
    (product : Product) (freshId : Nat) : List CartRow :=
  let existing := store.filter (fun r => r.user_id == uid && r.product_id == pid)
  match findCartMatch existing selectedVariant selectedMeasurement with
  | some m =>
      store.map (fun r =>
        if r.id == m.id then { r with quantity_litres := m.quantity_litres + quantity }
        else r)
  | none =>
      store ++ [{ id := freshId, user_id := uid, product_id := pid,
                  quantity_litres := quantity,
                  variant_selection := selectedVariant,
                  variant_price := selectedVariant.bind (fun v => v.price),
                  measurement_label := measurementLabelCol product,
                  measurement_value := currMeasValue selectedMeasurement,
                  measurement_price := measPriceCol selectedMeasurement,
                  products := none }]

/-- A coupons row. -/
structure Coupon where
  code : String
  is_active : Bool
  discount_type : String
  discount_value : ℚ
  min_order_amount : Option ℚ := none
  max_discount_amount : Option ℚ := none
  valid_until : Option ℤ := none
deriving DecidableEq

/-- The discount derivation (Checkout lines 54-61): a percentage coupon
takes the minimum of subtotal times value over 100 and the cap
max_discount_amount or Infinity; a null or zero cap is falsy and
becomes Infinity, removing the clamp.  Any other type takes
discount_value verbatim. -/
def discountFor (appliedCoupon : Option Coupon) (subtotal : ℚ) : ℚ :=
  match appliedCoupon with
  | none => 0
  | some c =>
    if c.discount_type = "percentage" then
      match c.max_discount_amount with
      | some m =>
          if m != 0 then min (subtotal * c.discount_value / 100) m
          else subtotal * c.discount_value / 100
      | none => subtotal * c.discount_value / 100
    else c.discount_value

/-- The three errors thrown by applyCouponMutation. -/
inductive CouponError where
  | invalidCode : CouponError
  | belowMinimum (minAmount : ℚ) : CouponError
  | expired : CouponError
deriving DecidableEq

/-- The minimum-order check (Checkout line 123): skipped when
min_order_amount is null or zero (both falsy). -/
def minOrderFails (data : Coupon) (subtotal : ℚ) : Bool :=
  match data.min_order_amount with
  | some m => m != 0 && decide (subtotal < m)
  | none => false

/-- The expiry check (Checkout line 127): skipped when valid_until is
null. -/
def expiryFails (data : Coupon) (now : ℤ) : Bool :=
  match data.valid_until with
  | some t => decide (t < now)
  | none => false

/-- applyCouponMutation (Checkout lines 111-131): look up an active
coupon under the uppercased code, then check the minimum order amount,
then the expiry; the first failing check throws. -/
def applyCoupon (coupons : List Coupon) (couponCode : String) (subtotal : ℚ)
    (now : ℤ) : Except CouponError Coupon :=
  match coupons.find? (fun c => c.code == jsToUpper couponCode && c.is_active) with
  | none => .error .invalidCode
  | some data =>
    if minOrderFails data subtotal then .error (.belowMinimum (data.min_order_amount.getD 0))
    else if expiryFails data now then .error .expired
    else .ok data

/-- variantPrice of a checkout or cart line (Checkout line 46): the
stored variant_price when it is a number, else the price inside the
stored variant_selection. -/
def lineVariantPrice (item : CartRow) : Option ℚ :=
  match item.variant_price with
  | some q => some q
  | none => item.variant_selection.bind (fun v => v.price)

/-- Unit price of a checkout or cart line (Checkout lines 48-50): when
either stored price is a number, their sum with a missing one as 0;
otherwise the joined product's offer price, then its base price,
then 0. -/
def linePrice (item : CartRow) : ℚ :=
  if (lineVariantPrice item).isSome || item.measurement_price.isSome then
    (lineVariantPrice item).getD 0 + item.measurement_price.getD 0
  else
    match item.products with
    | some p => p.offer_price_per_litre.getD p.price_per_litre
    | none => 0

/-- The checkout subtotal (Checkout lines 44-52). -/
def subtotalOf (cartItems : List CartRow) : ℚ :=
  cartItems.foldl (fun sum item => sum + linePrice item * item.quantity_litres) 0

/-- An orders row as inserted at checkout. -/
structure OrderRec where
  id : String
  user_id : String
  order_number : String
  total_amount : ℚ
  discount_amount : ℚ
  final_amount : ℚ
  coupon_code : Option String := none
  shipping_address : String
  status : String
  payment_status : String
deriving DecidableEq

/-- An order_items row as inserted at checkout. -/
structure OrderItemRec where
  order_id : String
  product_id : String
  product_name : String
  quantity_litres : ℚ
  price_per_litre : ℚ
  total_price : ℚ
  variant_selection : Option VariantOption := none
  measurement_label : Option String := none
  measurement_value : JsVal := .null

/-- The store tables touched by checkout. -/
structure Store where
  orders : List OrderRec := []
  order_items : List OrderItemRec := []

/-- a || b on optional strings where null and the empty string are
falsy. -/
def orStrTruthy (a b : Option String) : Option String :=
  match a with
  | some s => if s != "" then some s else b
  | none => b

/-- v || null on a JavaScript value. -/
def jsOrNullVal (v : JsVal) : JsVal := if jsTruthy v then v else .null

/-- The order_items record built from a cart line (Checkout lines
87-104): the unit price is recomputed by the same rule as the subtotal
and snapshotted together with the product name and option labels. -/
def mkOrderItem (orderId : String) (item : CartRow) : OrderItemRec :=
  { order_id := orderId
    product_id := item.product_id
    product_name := (item.products.map (fun p => p.name)).getD ""
    quantity_litres := item.quantity_litres
    price_per_litre := linePrice item
    total_price := linePrice item * item.quantity_litres
    variant_selection := item.variant_selection
    measurement_label := orStrTruthy item.measurement_label
      (orStrTruthy (item.products.bind (fun p => p.measurement_title)) none)
    measurement_value := jsOrNullVal item.measurement_value }

/-- createSupabaseOrder (Checkout lines 66-109), with the surrounding
store state made explicit.  The user and cart-emptiness guard runs
first; the orders row is inserted, then the order_items rows; a failing
insert is surfaced as an error and nothing is rolled back.  orderFail
and itemsFail inject store-level insert failures; oid and orderNumber
stand for the store-generated id and the generated order number. -/
def createSupabaseOrder (st : Store) (user : Option String)
    (cartItems : List CartRow) (appliedCoupon : Option Coupon)
    (address : String) (oid orderNumber : String)
    (orderFail itemsFail : Bool) : Except String OrderRec × Store :=
  if user.isNone || cartItems.isEmpty then (.error "Cart is empty", st)
  else
    let subtotal := subtotalOf cartItems
    let discount := discountFor appliedCoupon subtotal
    let total := subtotal - discount
    let order : OrderRec :=
      { id := oid
        user_id := user.getD ""
        order_number := orderNumber
        total_amount := subtotal
        discount_amount := discount
        final_amount := total
        coupon_code := appliedCoupon.map (fun c => c.code)
        shipping_address := address
        status := "pending"
        payment_status := "pending" }
    if orderFail then (.error "order insert failed", st)
    else
      let st1 : Store := { st with orders := st.orders ++ [order] }
      let orderItems := cartItems.map (mkOrderItem order.id)
      if itemsFail then (.error "order items insert failed", st1)
      else (.ok order, { st1 with order_items := st1.order_items ++ orderItems })

/-! Claim-side vocabulary: the price carried by a selection, in the
sense of the specification (a non-NaN numeric price field). -/

/-- The non-NaN numeric price carried by a selected variant. -/
def variantCarriedPrice (sv : Option VariantOption) : Option ℚ :=
  sv.bind (fun v => v.price)

/-- The non-NaN numeric price carried by a selected measurement. -/
def measCarriedPrice (sm : Option MeasurementOption) : Option ℚ :=
  match sm with
  | some m => match m.price with | some (.val q) => some q | _ => none
  | none => none

theorem vPriceOf_eq_carried (sv : Option VariantOption) :
    vPriceOf sv = (variantCarriedPrice sv).getD 0 := by
  cases sv with
  | none => rfl
  | some v =>
    cases hp : v.price with
    | none => simp [vPriceOf, variantCarriedPrice, hp]
    | some q => simp [vPriceOf, variantCarriedPrice, hp]

theorem mPriceOf_eq_carried (sm : Option MeasurementOption) :
    mPriceOf sm = (measCarriedPrice sm).getD 0 := by
  cases sm with
  | none => rfl
  | some m =>
    cases hp : m.price with
    | none => simp [mPriceOf, measCarriedPrice, hp]
    | some n => cases n <;> simp [mPriceOf, measCarriedPrice, hp]

/-- C1 counterexample: the variant selection carries the non-NaN numeric
price 0 (and no measurement is selected), so the claim requires the
effective price to be the sum 0; but the code computes 100, the base
price, because the JavaScript truthiness test treats a zero price as
absent. -/
theorem effectivePrice_zero_price_cex :
    variantCarriedPrice (some { label := "X", price := some 0 }) = some 0 ∧
    (variantCarriedPrice (some { label := "X", price := some 0 })).getD 0 +
      (measCarriedPrice (none : Option MeasurementOption)).getD 0 = 0 ∧
    effectivePrice { name := "p", price_per_litre := 100 }
      (some { label := "X", price := some 0 }) none = 100 ∧
    (100 : ℚ) ≠ 0 := by
  refine ⟨rfl, ?_, rfl, by norm_num⟩
  norm_num [variantCarriedPrice, measCarriedPrice]

/-- C1 (amended): the effective unit price is the sum of the two carried
option prices (a missing or NaN one treated as 0) exactly when that sum
data is truthy, i.e. some carried price is nonzero; otherwise —
including when the only carried prices are zero — it is the product's
sale price if present, else the base price.  In the summing case the
result does not depend on the product at all. -/
theorem effectivePrice_spec (p p2 : Product) (sv : Option VariantOption)
    (sm : Option MeasurementOption) :
    (effectivePrice p sv sm =
      if (variantCarriedPrice sv).getD 0 ≠ 0 ∨ (measCarriedPrice sm).getD 0 ≠ 0 then
        (variantCarriedPrice sv).getD 0 + (measCarriedPrice sm).getD 0
      else p.offer_price_per_litre.getD p.price_per_litre) ∧
    (variantCarriedPrice sv = none ∧ measCarriedPrice sm = none →
      effectivePrice p sv sm = p.offer_price_per_litre.getD p.price_per_litre) ∧
    ((variantCarriedPrice sv).getD 0 ≠ 0 ∨ (measCarriedPrice sm).getD 0 ≠ 0 →
      effectivePrice p sv sm = effectivePrice p2 sv sm) := by
  have hv := vPriceOf_eq_carried sv
  have hm := mPriceOf_eq_carried sm
  have hmain : ∀ q : Product, effectivePrice q sv sm =
      if (variantCarriedPrice sv).getD 0 ≠ 0 ∨ (measCarriedPrice sm).getD 0 ≠ 0 then
        (variantCarriedPrice sv).getD 0 + (measCarriedPrice sm).getD 0
      else q.offer_price_per_litre.getD q.price_per_litre := by
    intro q
    by_cases hc : (variantCarriedPrice sv).getD 0 ≠ 0 ∨ (measCarriedPrice sm).getD 0 ≠ 0
    · rw [if_pos hc]
      simp [effectivePrice, hv, hm]
      intro h1 h2
      rcases hc with h | h
      · exact absurd h1 h
      · exact absurd h2 h
    · rw [if_neg hc]
      push_neg at hc
      have hb : (vPriceOf sv != 0 || mPriceOf sm != 0) = false := by
        simp [hv, hm, hc.1, hc.2]
      simp [effectivePrice, hb]
  refine ⟨hmain p, ?_, ?_⟩
  · intro hnone
    rw [hmain p, if_neg]
    push_neg
    simp [hnone.1, hnone.2]
  · intro hc
    rw [hmain p, hmain p2, if_pos hc, if_pos hc]

/-- Witness for effectivePrice_spec at concrete inputs: a variant price
of 5 makes the effective price 5 for any product, and with no carried
prices a product with base price 100 and no sale price yields 100. -/
theorem effectivePrice_spec_witness :
    effectivePrice { name := "p", price_per_litre := 100 }
        (some { label := "X", price := some 5 }) none =
      effectivePrice { name := "q", price_per_litre := 7, offer_price_per_litre := some 3 }
        (some { label := "X", price := some 5 }) none ∧
    effectivePrice { name := "p", price_per_litre := 100 } none none = 100 := by
  constructor
  · exact (effectivePrice_spec { name := "p", price_per_litre := 100 }
      { name := "q", price_per_litre := 7, offer_price_per_litre := some 3 }
      (some { label := "X", price := some 5 }) none).2.2
      (Or.inl (by norm_num [variantCarriedPrice]))
  · exact (effectivePrice_spec { name := "p", price_per_litre := 100 }
      { name := "p", price_per_litre := 100 } none none).2.1 ⟨rfl, rfl⟩

/-- C5: coupon validation runs in order with the first failure winning:
an absent or inactive coupon under the uppercased code reports the
invalid-code error (and a successful lookup really is an active coupon
stored under the uppercased code); a set minimum order amount above the
(nonnegative) subtotal reports the below-minimum error regardless of
expiry — in particular when the coupon is also expired; and when the
minimum check passes, a past valid_until reports the expired error. -/
theorem applyCoupon_order (coupons : List Coupon) (code : String)
    (subtotal : ℚ) (now : ℤ) (hsub : 0 ≤ subtotal) :
    (coupons.find? (fun c => c.code == jsToUpper code && c.is_active) = none →
      applyCoupon coupons code subtotal now = .error .invalidCode) ∧
    (∀ c, applyCoupon coupons code subtotal now = .ok c →
      c.code = jsToUpper code ∧ c.is_active = true) ∧
    (∀ c m, coupons.find? (fun c => c.code == jsToUpper code && c.is_active) = some c →
      c.min_order_amount = some m → subtotal < m →
      applyCoupon coupons code subtotal now = .error (.belowMinimum m)) ∧
    (∀ c t, coupons.find? (fun c => c.code == jsToUpper code && c.is_active) = some c →
      (¬ ∃ m, c.min_order_amount = some m ∧ m ≠ 0 ∧ subtotal < m) →
      c.valid_until = some t → t < now →
      applyCoupon coupons code subtotal now = .error .expired) := by
  refine ⟨?_, ?_, ?_, ?_⟩
  · intro hf
    simp [applyCoupon, hf]
  · intro c hok
    cases hf : coupons.find? (fun c => c.code == jsToUpper code && c.is_active) with
    | none => simp [applyCoupon, hf] at hok
    | some d =>
      have hd := List.find?_some hf
      have hdc : d = c := by
        by_cases h1 : minOrderFails d subtotal
        · simp [applyCoupon, hf, h1] at hok
        · by_cases h2 : expiryFails d now
          · simp [applyCoupon, hf, h1, h2] at hok
          · simpa [applyCoupon, hf, h1, h2] using hok
      subst hdc
      simp only [Bool.and_eq_true, beq_iff_eq] at hd
      exact ⟨hd.1, hd.2⟩
  · intro c m hf hm hlt
    have hmpos : (0 : ℚ) < m := lt_of_le_of_lt hsub hlt
    have hfail : minOrderFails c subtotal = true := by
      simp [minOrderFails, hm, hlt, ne_of_gt hmpos]
    simp [applyCoupon, hf, hfail, hm]
  · intro c t hf hnmin ht hlt
    have hnofail : minOrderFails c subtotal = false := by
      cases hmo : c.min_order_amount with
      | none => simp [minOrderFails, hmo]
      | some m =>
        by_cases hz : m = 0
        · simp [minOrderFails, hmo, hz]
        · by_cases hl : subtotal < m
          · exact absurd ⟨m, hmo, hz, hl⟩ hnmin
          · simp [minOrderFails, hmo, hl]
    have hexp : expiryFails c now = true := by simp [expiryFails, ht, hlt]
    simp [applyCoupon, hf, hnofail, hexp]

/-- An active 10 percent coupon with minimum order 100, expiring at
time 5. -/
def couponMin100 : Coupon :=
  { code := "SAVE10", is_active := true, discount_type := "percentage",
    discount_value := 10, min_order_amount := some 100, valid_until := some 5 }

/-- Witness for applyCoupon_order: a coupon with minimum 100 that is
also already expired (now = 9 is past valid_until = 5) rejects a
subtotal of 50 with the below-minimum error, not the expired error. -/
theorem applyCoupon_order_witness :
    applyCoupon [couponMin100] "save10" 50 9 = .error (.belowMinimum 100) := by
  exact (applyCoupon_order [couponMin100] "save10" 50 9
    (by norm_num)).2.2.1 couponMin100 100 (by rfl) rfl (by norm_num)

/-- The percentage coupon with a zero cap used against claim C6. -/
def couponCapZero : Coupon :=
  { code := "SAVE10", is_active := true, discount_type := "percentage",
    discount_value := 10, max_discount_amount := some 0 }

/-- C6 counterexample: a valid percentage coupon whose
max_discount_amount is set to 0.  The claim requires the discount
min(200*10/100, 0) = 0, but the code treats the zero cap as falsy and
computes the uncapped 20. -/
theorem discount_cap_zero_cex :
    applyCoupon [couponCapZero] "save10" 200 0 = .ok couponCapZero ∧
    couponCapZero.max_discount_amount = some 0 ∧
    discountFor (some couponCapZero) 200 = 20 ∧
    min (200 * couponCapZero.discount_value / 100) 0 = 0 ∧
    (20 : ℚ) ≠ 0 := by
  refine ⟨rfl, rfl, ?_, ?_, by norm_num⟩
  · norm_num [discountFor, couponCapZero]
  · norm_num [couponCapZero]

/-- C6 (amended): for a coupon accepted by the evaluator — a fixed
coupon's discount is discount_value verbatim, unclamped, so any
subtotal below the value makes the final amount negative; a percentage
coupon's discount is min(subtotal*value/100, cap) when the cap is set
and nonzero, and the uncapped subtotal*value/100 when the cap is null
or zero. -/
theorem coupon_discount_spec (coupons : List Coupon) (code : String)
    (subtotal : ℚ) (now : ℤ) (c : Coupon)
    (_hok : applyCoupon coupons code subtotal now = .ok c) :
    (c.discount_type = "fixed" →
      discountFor (some c) subtotal = c.discount_value ∧
      (subtotal < c.discount_value →
        subtotal - discountFor (some c) subtotal < 0)) ∧
    (c.discount_type = "percentage" →
      (∀ m, c.max_discount_amount = some m → m ≠ 0 →
        discountFor (some c) subtotal = min (subtotal * c.discount_value / 100) m) ∧
      ((c.max_discount_amount = none ∨ c.max_discount_amount = some 0) →
        discountFor (some c) subtotal = subtotal * c.discount_value / 100)) := by
  refine ⟨fun hf => ?_, fun hp => ⟨?_, ?_⟩⟩
  · have hval : discountFor (some c) subtotal = c.discount_value := by
      simp [discountFor, hf]
    exact ⟨hval, fun hlt => by rw [hval]; linarith⟩
  · intro m hm hmne
    simp [discountFor, hp, hm, hmne]
  · rintro (h | h) <;> simp [discountFor, hp, h]

/-- An active fixed coupon of value 50. -/
def couponFixed50 : Coupon :=
  { code := "FLAT50", is_active := true, discount_type := "fixed",
    discount_value := 50 }

/-- Witness for coupon_discount_spec: a fixed coupon of value 50
applied at subtotal 10 discounts 50 and drives the final amount
negative. -/
theorem coupon_discount_spec_witness :
    discountFor (some couponFixed50) 10 = 50 ∧
    (10 : ℚ) - discountFor (some couponFixed50) 10 < 0 := by
  have h := (coupon_discount_spec [couponFixed50] "flat50" 10 0
    couponFixed50 rfl).1 rfl
  exact ⟨by rw [h.1]; rfl, h.2 (by norm_num [couponFixed50])⟩

/-- C10: a percentage coupon whose max_discount_amount is null or 0
(a falsy cap) is discounted with the cap replaced by Infinity, i.e. the
discount is the unclamped subtotal * value / 100. -/
theorem discount_falsy_cap_uncapped (c : Coupon) (subtotal : ℚ)
    (htype : c.discount_type = "percentage")
    (hcap : c.max_discount_amount = none ∨ c.max_discount_amount = some 0) :
    discountFor (some c) subtotal = subtotal * c.discount_value / 100 := by
  rcases hcap with h | h <;> simp [discountFor, htype, h]

/-- Witness for discount_falsy_cap_uncapped: value 10 percent with a
zero cap discounts 20 from a subtotal of 200. -/
theorem discount_falsy_cap_uncapped_witness :
    discountFor (some couponCapZero) 200 = 20 := by
  rw [discount_falsy_cap_uncapped couponCapZero 200 rfl (Or.inr rfl)]
  norm_num [couponCapZero]

/-- Follows the spec's words (4.2 precedence rule, as referenced by the
Order Composer): if either stored option price is present, the unit
price is their sum with a missing one treated as 0; otherwise the sale
price if present, else the base price. -/
def specResolvedUnitPrice (vp mp sale : Option ℚ) (base : ℚ) : ℚ :=
  if vp.isSome ∨ mp.isSome then vp.getD 0 + mp.getD 0 else sale.getD base

theorem linePrice_products_independent (item : CartRow) (p1 p2 : Option Product)
    (h : (lineVariantPrice item).isSome ∨ item.measurement_price.isSome) :
    linePrice { item with products := p1 } = linePrice { item with products := p2 } := by
  have hv : ∀ p, lineVariantPrice { item with products := p } = lineVariantPrice item :=
    fun _ => rfl
  rcases h with h | h
  · simp [linePrice, hv, h]
  · simp [linePrice, hv, h]

/-- The orders row built by createSupabaseOrder for a logged-in user. -/
def composedOrder (uid : String) (cartItems : List CartRow) (coupon : Option Coupon)
    (address oid orderNumber : String) : OrderRec :=
  { id := oid, user_id := uid, order_number := orderNumber,
    total_amount := subtotalOf cartItems,
    discount_amount := discountFor coupon (subtotalOf cartItems),
    final_amount := subtotalOf cartItems - discountFor coupon (subtotalOf cartItems),
    coupon_code := coupon.map (fun c => c.code),
    shipping_address := address, status := "pending",
    payment_status := "pending" }

theorem linePrice_eq_specResolved (item : CartRow) (p : Product)
    (hp : item.products = some p) :
    linePrice item = specResolvedUnitPrice (lineVariantPrice item)
      item.measurement_price p.offer_price_per_litre p.price_per_litre := by
  cases hv : lineVariantPrice item <;> cases hm : item.measurement_price <;>
    simp [linePrice, specResolvedUnitPrice, hv, hm, hp]

/-- C2: with a logged-in user, checkout on the empty cart reports the
Cart is empty error and leaves the store unchanged; on a non-empty cart
it creates exactly one pending order whose final amount is the subtotal
minus the coupon discount, and appends exactly one order_items row per
cart line whose snapshotted unit price is the line's resolved price at
composition time — which agrees with the spec's 4.2 precedence rule on
the line's stored prices and joined product, and does not depend on the
catalog entry at all when a stored option price is present (so a later
catalog price change cannot affect it). -/
theorem createOrder_spec (st : Store) (uid : String) (cartItems : List CartRow)
    (coupon : Option Coupon) (address oid orderNumber : String)
    (hne : cartItems ≠ []) :
    createSupabaseOrder st (some uid) [] coupon address oid orderNumber false false =
      (.error "Cart is empty", st) ∧
    (∀ item p1 p2, (lineVariantPrice item).isSome ∨ item.measurement_price.isSome →
      linePrice { item with products := p1 } = linePrice { item with products := p2 }) ∧
    (∀ item p, item.products = some p →
      linePrice item = specResolvedUnitPrice (lineVariantPrice item)
        item.measurement_price p.offer_price_per_litre p.price_per_litre) ∧
    ∃ o : OrderRec,
      (createSupabaseOrder st (some uid) cartItems coupon address oid orderNumber
        false false).1 = .ok o ∧
      o.total_amount = subtotalOf cartItems ∧
      o.discount_amount = discountFor coupon (subtotalOf cartItems) ∧
      o.final_amount = subtotalOf cartItems - discountFor coupon (subtotalOf cartItems) ∧
      o.status = "pending" ∧
      o.payment_status = "pending" ∧
      (createSupabaseOrder st (some uid) cartItems coupon address oid orderNumber
        false false).2.orders = st.orders ++ [o] ∧
      (createSupabaseOrder st (some uid) cartItems coupon address oid orderNumber
        false false).2.order_items.length = st.order_items.length + cartItems.length ∧
      ((createSupabaseOrder st (some uid) cartItems coupon address oid orderNumber
        false false).2.order_items.drop st.order_items.length).map
          (fun it => it.price_per_litre) = cartItems.map linePrice := by
  have hguard : ((some uid : Option String).isNone || cartItems.isEmpty) = false := by
    cases cartItems with
    | nil => exact absurd rfl hne
    | cons a t => rfl
  refine ⟨rfl, linePrice_products_independent, linePrice_eq_specResolved, ?_⟩
  have hres : createSupabaseOrder st (some uid) cartItems coupon address oid orderNumber
      false false =
      (.ok (composedOrder uid cartItems coupon address oid orderNumber),
       { orders := st.orders ++ [composedOrder uid cartItems coupon address oid orderNumber],
         order_items := st.order_items ++ cartItems.map (mkOrderItem oid) }) := by
    unfold createSupabaseOrder composedOrder
    rw [hguard]
    rfl
  refine ⟨_, by rw [hres], rfl, rfl, rfl, rfl, rfl, by rw [hres], ?_, ?_⟩
  · rw [hres]
    simp
  · rw [hres]
    show ((st.order_items ++ cartItems.map (mkOrderItem oid)).drop
      st.order_items.length).map (fun it => it.price_per_litre) = cartItems.map linePrice
    rw [List.drop_left, List.map_map]
    rfl

/-- A cart line with a stored variant price of 100 and quantity 1. -/
def rowVariant100 : CartRow :=
  { id := 1, user_id := "u", product_id := "p1", quantity_litres := 1,
    variant_price := some 100 }

/-- A cart line with a stored measurement price of 50 and quantity 1. -/
def rowMeas50 : CartRow :=
  { id := 2, user_id := "u", product_id := "p2", quantity_litres := 1,
    measurement_price := some 50 }

/-- An active fixed coupon of value 20. -/
def couponFixed20 : Coupon :=
  { code := "OFF20", is_active := true, discount_type := "fixed",
    discount_value := 20 }

/-- Witness for createOrder_spec: two cart lines with subtotal 150 and a
coupon discount of 20 produce one pending order with final amount 130
and exactly 2 order lines snapshotting unit prices 100 and 50. -/
theorem createOrder_spec_witness :
    ∃ o : OrderRec,
      (createSupabaseOrder { } (some "u") [rowVariant100, rowMeas50]
        (some couponFixed20) "addr" "o1" "n1" false false).1 = .ok o ∧
      o.final_amount = 130 ∧ o.status = "pending" ∧ o.payment_status = "pending" ∧
      (createSupabaseOrder { } (some "u") [rowVariant100, rowMeas50]
        (some couponFixed20) "addr" "o1" "n1" false false).2.order_items.map
          (fun it => it.price_per_litre) = [100, 50] := by
  obtain ⟨-, -, -, o, h1, -, -, hfin, hst, hpay, -, -, hmap⟩ :=
    createOrder_spec { } "u" [rowVariant100, rowMeas50] (some couponFixed20)
      "addr" "o1" "n1" (by simp)
  refine ⟨o, h1, ?_, hst, hpay, ?_⟩
  · rw [hfin]
    norm_num [subtotalOf, linePrice, lineVariantPrice, rowVariant100, rowMeas50,
      discountFor, couponFixed20]
    rw [if_neg (by decide)]
    norm_num
  · have : ({ } : Store).order_items.length = 0 := rfl
    rw [← List.drop_zero ((createSupabaseOrder { } (some "u") [rowVariant100, rowMeas50]
      (some couponFixed20) "addr" "o1" "n1" false false).2.order_items), ← this, hmap]
    norm_num [linePrice, lineVariantPrice, rowVariant100, rowMeas50]

/-- C9: when the order_items insert fails, checkout surfaces the error
to the caller but the already-inserted order row stays: the resulting
store holds one new order with the given id and its order_items table is
unchanged, so (when the id is fresh) that order has no order lines. -/
theorem createOrder_not_atomic (st : Store) (uid : String) (cartItems : List CartRow)
    (coupon : Option Coupon) (address oid orderNumber : String)
    (hne : cartItems ≠ [])
    (hfresh : ∀ it ∈ st.order_items, it.order_id ≠ oid) :
    ∃ e o,
      createSupabaseOrder st (some uid) cartItems coupon address oid orderNumber
        false true = (.error e, { st with orders := st.orders ++ [o] }) ∧
      o.id = oid ∧ o.status = "pending" ∧
      ∀ it ∈ ({ st with orders := st.orders ++ [o] } : Store).order_items,
        it.order_id ≠ o.id := by
  have hguard : ((some uid : Option String).isNone || cartItems.isEmpty) = false := by
    cases cartItems with
    | nil => exact absurd rfl hne
    | cons a t => rfl
  refine ⟨"order items insert failed",
    composedOrder uid cartItems coupon address oid orderNumber, ?_, rfl, rfl, ?_⟩
  · unfold createSupabaseOrder composedOrder
    rw [hguard]
    rfl
  · intro it hit
    exact hfresh it hit

/-- Witness for createOrder_not_atomic: from the empty store, a failing
order_items insert leaves exactly the orphan order behind. -/
theorem createOrder_not_atomic_witness :
    ∃ e o,
      createSupabaseOrder { } (some "u") [rowVariant100] none "addr" "o1" "n1"
        false true = (.error e, { orders := [o], order_items := [] }) ∧
      o.id = "o1" ∧ o.status = "pending" ∧
      ∀ it ∈ ({ orders := [o], order_items := [] } : Store).order_items,
        it.order_id ≠ o.id := by
  obtain ⟨e, o, h⟩ := createOrder_not_atomic { } "u" [rowVariant100] none "addr" "o1" "n1"
    (by simp) (by intro it hit; simp at hit)
  exact ⟨e, o, h⟩

/-- Follows the spec's words (4.3 match rule, claim C3): a measurement
stored as a raw label string or as a JSON-encoded object containing a
label is unwrapped to a bare label; an object form yields its label
field. -/
def specMeasurementBareLabel : JsVal → Option String
  | .str s =>
    match (jsonParse s).bind (fun p =>
      match getField p "label" with
      | .str l => some l
      | _ => none) with
    | some l => some l
    | none => some s
  | .obj fs =>
    match getField (.obj fs) "label" with
    | .str l => some l
    | _ => none
  | _ => none

/-- A stored cart line whose measurement value is a JSON-encoded object
containing the label 500ml. -/
def rowJsonMeas : CartRow :=
  { id := 3, user_id := "u", product_id := "p", quantity_litres := 1,
    measurement_value := .str "\x7b\"label\":\"500ml\"\x7d" }

/-- C3 counterexample: the stored measurement is a JSON-encoded object
whose bare label 500ml equals the candidate's measurement label, and the
variant labels both null, so the claim requires this line to match; but
the matcher compares the raw JSON text against the bare label without
unwrapping and finds no match. -/
theorem cartMatch_json_string_cex :
    specMeasurementBareLabel rowJsonMeas.measurement_value = some "500ml" ∧
    itemVarLabel rowJsonMeas = none ∧
    findCartMatch [rowJsonMeas] none (some { label := .str "500ml" }) = none := by
  exact ⟨rfl, rfl, rfl⟩

theorem jsStrictEq_eq_true_iff (x y : JsVal)
    (hy : (∃ s, y = JsVal.str s) ∨ y = JsVal.null) :
    jsStrictEq x y = true ↔ x = y := by
  rcases hy with ⟨s, rfl⟩ | rfl
  · cases x with
    | num n => cases n <;> simp [jsStrictEq]
    | null => simp [jsStrictEq]
    | undefined => simp [jsStrictEq]
    | bool b => simp [jsStrictEq]
    | str a => simp [jsStrictEq]
    | arr xs => simp [jsStrictEq]
    | obj fs => simp [jsStrictEq]
  · cases x with
    | num n => cases n <;> simp [jsStrictEq]
    | null => simp [jsStrictEq]
    | undefined => simp [jsStrictEq]
    | bool b => simp [jsStrictEq]
    | str a => simp [jsStrictEq]
    | arr xs => simp [jsStrictEq]
    | obj fs => simp [jsStrictEq]

/-- C3 (amended): for candidates whose measurement label is a string (as
the declared option type provides), a line matches iff its variant label
equals the candidate's — both null counting as equal — and the stored
measurement, taken verbatim when it is a raw string (no JSON
unwrapping) and as the label field when it is an object, is strictly
equal to the candidate's label (null when no measurement is
selected). -/
theorem cartMatch_no_unwrap (existing : List CartRow)
    (selV : Option VariantOption) (selM : Option MeasurementOption)
    (hcand : ∀ m ∈ selM, ∃ s, m.label = JsVal.str s) :
    (findCartMatch existing selV selM).isSome = true ↔
      ∃ it ∈ existing, itemVarLabel it = selV.map (fun v => v.label) ∧
        itemMeasValue it = currMeasValue selM := by
  have hshape : (∃ s, currMeasValue selM = JsVal.str s) ∨ currMeasValue selM = JsVal.null := by
    cases selM with
    | none => exact Or.inr rfl
    | some m =>
      obtain ⟨s, hs⟩ := hcand m rfl
      exact Or.inl ⟨s, hs⟩
  unfold findCartMatch
  rw [List.find?_isSome]
  constructor
  · rintro ⟨it, hmem, hp⟩
    unfold cartLineMatches at hp
    rw [Bool.and_eq_true, beq_iff_eq] at hp
    exact ⟨it, hmem, hp.1, (jsStrictEq_eq_true_iff _ _ hshape).mp hp.2⟩
  · rintro ⟨it, hmem, h1, h2⟩
    refine ⟨it, hmem, ?_⟩
    unfold cartLineMatches
    rw [Bool.and_eq_true, beq_iff_eq]
    exact ⟨h1, (jsStrictEq_eq_true_iff _ _ hshape).mpr h2⟩

/-- A stored cart line whose measurement value is the raw label
500ml. -/
def rowPlainMeas : CartRow :=
  { id := 4, user_id := "u", product_id := "p", quantity_litres := 1,
    measurement_value := .str "500ml" }

/-- Witness for cartMatch_no_unwrap: a line storing the raw label 500ml
matches the candidate selecting label 500ml. -/
theorem cartMatch_no_unwrap_witness :
    (findCartMatch [rowPlainMeas] none (some { label := .str "500ml" })).isSome = true := by
  refine (cartMatch_no_unwrap [rowPlainMeas] none (some { label := .str "500ml" }) ?_).mpr
    ⟨rowPlainMeas, by simp, rfl, rfl⟩
  intro m hm
  rw [Option.mem_def, Option.some_inj] at hm
  exact ⟨"500ml", by rw [← hm]⟩

/-- The row inserted by add-to-cart when no line matches (product page
lines 420-429). -/
def insertedCartRow (uid pid : String) (quantity : ℚ)
    (selectedVariant : Option VariantOption)
    (selectedMeasurement : Option MeasurementOption)
    (product : Product) (freshId : Nat) : CartRow :=
  { id := freshId, user_id := uid, product_id := pid,
    quantity_litres := quantity,
    variant_selection := selectedVariant,
    variant_price := selectedVariant.bind (fun v => v.price),
    measurement_label := measurementLabelCol product,
    measurement_value := currMeasValue selectedMeasurement,
    measurement_price := measPriceCol selectedMeasurement,
    products := none }

theorem addToCart_no_match (store : List CartRow) (uid pid : String) (q : ℚ)
    (selV : Option VariantOption) (selM : Option MeasurementOption)
    (prod : Product) (fid : Nat)
    (hnm : findCartMatch (store.filter (fun r => r.user_id == uid && r.product_id == pid))
      selV selM = none) :
    addToCart store uid pid q selV selM prod fid =
      store ++ [insertedCartRow uid pid q selV selM prod fid] := by
  simp only [addToCart, hnm]
  rfl

theorem addToCart_match (store : List CartRow) (uid pid : String) (q : ℚ)
    (selV : Option VariantOption) (selM : Option MeasurementOption)
    (prod : Product) (fid : Nat) (m : CartRow)
    (hm : findCartMatch (store.filter (fun r => r.user_id == uid && r.product_id == pid))
      selV selM = some m) :
    addToCart store uid pid q selV selM prod fid =
      store.map (fun r =>
        if r.id == m.id then { r with quantity_litres := m.quantity_litres + q }
        else r) := by
  simp only [addToCart, hm]

/-- C4: (a) when a line matches, add-to-cart updates in place: the store
keeps its length (nothing is inserted), the matched line reappears with
its quantity incremented by the requested amount, and every other line
is untouched; (b) when no line matches, exactly one new line is
appended, persisting the variant selection with its price override, the
measurement label and its price override, at this moment; (c) hence
adding the same (product, variant = null, measurement = null) twice for
one user turns a store with no matching line into the same store plus a
single new line carrying the summed quantity. -/
theorem addToCart_spec (uid pid : String) (prod : Product) :
    (∀ (store : List CartRow) (q : ℚ) selV selM (fid : Nat) (m : CartRow),
      findCartMatch (store.filter (fun r => r.user_id == uid && r.product_id == pid))
          selV selM = some m →
      (addToCart store uid pid q selV selM prod fid).length = store.length ∧
      { m with quantity_litres := m.quantity_litres + q } ∈
        addToCart store uid pid q selV selM prod fid ∧
      (∀ r ∈ store, r.id ≠ m.id → r ∈ addToCart store uid pid q selV selM prod fid)) ∧
    (∀ (store : List CartRow) (q : ℚ) selV selM (fid : Nat),
      findCartMatch (store.filter (fun r => r.user_id == uid && r.product_id == pid))
          selV selM = none →
      ∃ newRow, addToCart store uid pid q selV selM prod fid = store ++ [newRow] ∧
        newRow.quantity_litres = q ∧
        newRow.variant_selection = selV ∧
        newRow.variant_price = selV.bind (fun v => v.price) ∧
        newRow.measurement_value = currMeasValue selM ∧
        newRow.measurement_price = measPriceCol selM) ∧
    (∀ (store : List CartRow) (q1 q2 : ℚ) (fid1 fid2 : Nat),
      findCartMatch (store.filter (fun r => r.user_id == uid && r.product_id == pid))
          none none = none →
      (∀ r ∈ store, r.id ≠ fid1) →
      addToCart (addToCart store uid pid q1 none none prod fid1)
          uid pid q2 none none prod fid2 =
        store ++ [insertedCartRow uid pid (q1 + q2) none none prod fid1]) := by
  refine ⟨?_, ?_, ?_⟩
  · intro store q selV selM fid m hm
    have hms : m ∈ store :=
      List.mem_of_mem_filter (List.mem_of_find?_eq_some hm)
    rw [addToCart_match store uid pid q selV selM prod fid m hm]
    refine ⟨by simp, ?_, fun r hr hne => ?_⟩
    · exact List.mem_map.mpr ⟨m, hms, by simp⟩
    · exact List.mem_map.mpr ⟨r, hr, by simp [hne]⟩
  · intro store q selV selM fid hnm
    exact ⟨insertedCartRow uid pid q selV selM prod fid,
      addToCart_no_match store uid pid q selV selM prod fid hnm,
      rfl, rfl, rfl, rfl, rfl⟩
  · intro store q1 q2 fid1 fid2 hno hfid
    rw [addToCart_no_match store uid pid q1 none none prod fid1 hno]
    set row1 := insertedCartRow uid pid q1 none none prod fid1 with hrow1
    have hpass : (row1.user_id == uid && row1.product_id == pid) = true := by
      simp [hrow1, insertedCartRow]
    have hmatch1 : cartLineMatches none none row1 = true := rfl
    have hfind : findCartMatch ((store ++ [row1]).filter
        (fun r => r.user_id == uid && r.product_id == pid)) none none = some row1 := by
      unfold findCartMatch
      rw [List.filter_append, List.find?_append]
      have hn : (store.filter (fun r => r.user_id == uid && r.product_id == pid)).find?
          (cartLineMatches none none) = none := hno
      rw [hn]
      simp [hpass, hmatch1]
    rw [addToCart_match (store ++ [row1]) uid pid q2 none none prod fid2 row1 hfind]
    rw [List.map_append]
    have hstore : store.map (fun r =>
        if r.id == row1.id then { r with quantity_litres := row1.quantity_litres + q2 }
        else r) = store := by
      have : ∀ r ∈ store, (if r.id == row1.id then
          { r with quantity_litres := row1.quantity_litres + q2 } else r) = r := by
        intro r hr
        have : r.id ≠ row1.id := hfid r hr
        simp [this]
      rw [List.map_congr_left this, List.map_id']
    rw [hstore]
    have hbump : [row1].map (fun r =>
        if r.id == row1.id then { r with quantity_litres := row1.quantity_litres + q2 }
        else r) = [insertedCartRow uid pid (q1 + q2) none none prod fid1] := by
      simp [hrow1, insertedCartRow]
    rw [hbump]

/-- Witness for addToCart_spec: adding quantity 2 then quantity 3 of a
product with no selections to the empty store yields exactly one line
with quantity 5. -/
theorem addToCart_spec_witness :
    addToCart (addToCart [] "u" "p" 2 none none { name := "p", price_per_litre := 10 } 1)
        "u" "p" 3 none none { name := "p", price_per_litre := 10 } 2 =
      [insertedCartRow "u" "p" 5 none none { name := "p", price_per_litre := 10 } 1] := by
  have h := (addToCart_spec "u" "p" { name := "p", price_per_litre := 10 }).2.2
    [] 2 3 1 2 rfl (by intro r hr; simp at hr)
  rw [h]
  norm_num

theorem jsTrim_ne_empty {s : String} (h : jsTrim s ≠ "") : s ≠ "" := by
  intro hs
  exact h (by rw [hs]; rfl)

theorem variantLabelOfObj_trim (v : JsVal) :
    jsTrim (variantLabelOfObj v) = variantLabelOfObj v := by
  unfold variantLabelOfObj
  split
  · exact jsTrim_jsTrim _
  · rfl

theorem variantImageOfObj_some (v : JsVal) (u : String)
    (h : variantImageOfObj v = some u) : 0 < u.length := by
  unfold variantImageOfObj at h
  split at h
  · split at h
    · next hlen =>
      rw [Option.some_inj] at h
      subst h
      exact hlen
    · simp at h
  · simp at h

/-- Every variant option the parser emits has a trimmed nonempty label
and a nonempty image url when one is present. -/
theorem parseVariantOne_some (v : JsVal) (o : VariantOption)
    (h : parseVariantOne v = some o) :
    jsTrim o.label = o.label ∧ o.label ≠ "" ∧
      ∀ u, o.image_url = some u → 0 < u.length := by
  cases v with
  | str s =>
    have hred : parseVariantOne (JsVal.str s) =
        (if !jsTruthy (JsVal.str s) then none
         else if jsTrim s != "" then some { label := jsTrim s } else none) := rfl
    rw [hred] at h
    split at h
    · exact absurd h (by simp)
    · split at h
      · next hlab =>
        rw [Option.some_inj] at h
        subst h
        exact ⟨jsTrim_jsTrim s, by simpa using hlab, fun u hu => by simp at hu⟩
      · exact absurd h (by simp)
  | arr xs =>
    have hred : parseVariantOne (JsVal.arr xs) =
        (if !jsTruthy (JsVal.arr xs) then none
         else if variantLabelOfObj (JsVal.arr xs) = "" then none
         else some { label := variantLabelOfObj (JsVal.arr xs),
                     image_url := variantImageOfObj (JsVal.arr xs),
                     price := keepRealPrice (rawPriceOf (JsVal.arr xs)) }) := rfl
    rw [hred] at h
    split at h
    · exact absurd h (by simp)
    · split at h
      · exact absurd h (by simp)
      · next hne =>
        rw [Option.some_inj] at h
        subst h
        exact ⟨variantLabelOfObj_trim _, hne,
          fun u hu => variantImageOfObj_some (JsVal.arr xs) u hu⟩
  | obj fields =>
    have hred : parseVariantOne (JsVal.obj fields) =
        (if !jsTruthy (JsVal.obj fields) then none
         else if variantLabelOfObj (JsVal.obj fields) = "" then none
         else some { label := variantLabelOfObj (JsVal.obj fields),
                     image_url := variantImageOfObj (JsVal.obj fields),
                     price := keepRealPrice (rawPriceOf (JsVal.obj fields)) }) := rfl
    rw [hred] at h
    split at h
    · exact absurd h (by simp)
    · split at h
      · exact absurd h (by simp)
      · next hne =>
        rw [Option.some_inj] at h
        subst h
        exact ⟨variantLabelOfObj_trim _, hne,
          fun u hu => variantImageOfObj_some (JsVal.obj fields) u hu⟩
  | null => exact absurd h (by rw [show parseVariantOne JsVal.null = none from rfl]; simp)
  | undefined => exact absurd h (by rw [show parseVariantOne JsVal.undefined = none from rfl]; simp)
  | bool b =>
    have hred : parseVariantOne (JsVal.bool b) = none := by
      show (if !jsTruthy (JsVal.bool b) then none else none) = none
      exact ite_self none
    rw [hred] at h
    exact absurd h (by simp)
  | num n =>
    have hred : parseVariantOne (JsVal.num n) = none := by
      show (if !jsTruthy (JsVal.num n) then none else none) = none
      exact ite_self none
    rw [hred] at h
    exact absurd h (by simp)

/-- C7 counterexample: on the very same raw input — a JSON-shaped
string containing the substring label — the measurement parser attempts
the JSON parse and unwraps the bare label B, while the variant parser
never attempts a JSON parse and keeps the entire JSON text as the
literal label.  The two parsers do not follow the same rules, and the
variant parser attempts no JSON parse even when the claimed heuristic
condition holds. -/
theorem optionParser_divergence_cex :
    jsonShaped (jsTrim "\x7b\"label\":\"B\"\x7d") = true ∧
    parseVariantOptions (.arr [.str "\x7b\"label\":\"B\"\x7d"]) =
      [{ label := "\x7b\"label\":\"B\"\x7d" }] ∧
    measurementValues (.arr [.str "\x7b\"label\":\"B\"\x7d"]) =
      [{ label := .str "B" }] ∧
    ("\x7b\"label\":\"B\"\x7d" : String) ≠ "B" := by
  exact ⟨rfl, rfl, rfl, by decide⟩

/-- C7 (amended): the JSON-parse heuristic, malformed-JSON fallback and
trimming behave as follows.  (a) The variant parser never attempts a
JSON parse: a string input always becomes its trimmed literal label
(dropped when empty).  (b) The measurement parser attempts a JSON parse
only when the trimmed string is JSON-shaped and contains the substring
label: otherwise the trimmed string is the label.  (c) A malformed
JSON-shaped string silently falls back to the trimmed raw string as the
label.  (d) Variant labels are always trimmed and nonempty.  (e) In the
object branch of the measurement parser a price that parses to NaN is
dropped (the NaN-propagating case is the measurement JSON branch shown
in the counterexample). -/
theorem optionParser_rules (s : String) (fs : List (String × JsVal))
    (raw : JsVal) :
    (parseVariantOptions (.arr [.str s]) =
      if jsTrim s = "" then [] else [{ label := jsTrim s }]) ∧
    (jsTrim s ≠ "" → jsonShaped (jsTrim s) = false →
      measurementValues (.arr [.str s]) = [{ label := .str (jsTrim s) }]) ∧
    (jsTrim s ≠ "" → jsonShaped (jsTrim s) = true → jsonParse (jsTrim s) = none →
      measurementValues (.arr [.str s]) = [{ label := .str (jsTrim s) }]) ∧
    (∀ o ∈ parseVariantOptions raw, jsTrim o.label = o.label ∧ o.label ≠ "") ∧
    (∀ o, parseMeasurementOne (.obj fs) = some o → o.price ≠ some JsNum.nan) := by
  refine ⟨?_, ?_, ?_, ?_, ?_⟩
  · by_cases hs : s = ""
    · subst hs
      rfl
    · by_cases ht : jsTrim s = ""
      · rw [if_pos ht]
        simp [parseVariantOptions, parseVariantOne, jsTruthy, hs, ht]
      · rw [if_neg ht]
        simp [parseVariantOptions, parseVariantOne, jsTruthy, hs, ht]
  · intro ht hshape
    have hs := jsTrim_ne_empty ht
    simp [measurementValues, parseMeasurementOne, jsTruthy, hs, ht, hshape]
  · intro ht hshape hparse
    have hs := jsTrim_ne_empty ht
    simp [measurementValues, parseMeasurementOne, jsTruthy, hs, ht, hshape, hparse]
  · intro o ho
    cases raw with
    | arr xs =>
      simp only [parseVariantOptions, List.mem_filterMap] at ho
      obtain ⟨v, -, hv⟩ := ho
      obtain ⟨h1, h2, -⟩ := parseVariantOne_some v o hv
      exact ⟨h1, h2⟩
    | null => simp [parseVariantOptions] at ho
    | undefined => simp [parseVariantOptions] at ho
    | bool b => simp [parseVariantOptions] at ho
    | num n => simp [parseVariantOptions] at ho
    | str t => simp [parseVariantOptions] at ho
    | obj gs => simp [parseVariantOptions] at ho
  · intro o ho
    have htr : jsTruthy (JsVal.obj fs) = true := rfl
    simp only [parseMeasurementOne, htr, Bool.not_true] at ho
    cases hl : jsTruthy (jsOr (getField (JsVal.obj fs) "label") (JsVal.str "")) with
    | false =>
      rw [hl] at ho
      simp at ho
    | true =>
      rw [hl] at ho
      simp at ho
      subst ho
      show (keepRealPrice (rawPriceOf (.obj fs))).map JsNum.val ≠ some JsNum.nan
      cases keepRealPrice (rawPriceOf (.obj fs)) with
      | none => simp
      | some q => simp

/-- Witness for optionParser_rules: the string input that is not
JSON-shaped is trimmed and kept literally by both parsers, and the
malformed JSON-shaped string (an unterminated object) falls back to the
raw string. -/
theorem optionParser_rules_witness :
    measurementValues (.arr [.str " 500ml "]) = [{ label := .str "500ml" }] ∧
    measurementValues (.arr [.str "\x7b\"label\": oops"]) =
      [{ label := .str "\x7b\"label\": oops" }] := by
  constructor
  · exact (optionParser_rules " 500ml " [] .null).2.1 (by decide) (by decide)
  · exact (optionParser_rules "\x7b\"label\": oops" [] .null).2.2.1 (by decide)
      (by decide) (by rfl)

/-- A parsed variant option as the JavaScript object it is at runtime.
A missing field is encoded as null, which the parser treats exactly
like undefined. -/
def varToJs (o : VariantOption) : JsVal :=
  .obj [("label", .str o.label),
        ("image_url", match o.image_url with | some u => .str u | none => .null),
        ("price", match o.price with | some q => .num (.val q) | none => .null)]

/-- A parsed measurement option as the JavaScript object it is at
runtime. -/
def measToJs (o : MeasurementOption) : JsVal :=
  .obj [("label", o.label),
        ("price", match o.price with | some n => .num n | none => .null)]

/-- The NaN-priced option the measurement JSON branch emits for a
truthy non-numeric price. -/
def measNaN : MeasurementOption := { label := .str "X", price := some .nan }

/-- C8 counterexample: the measurement parser emits measNaN (price NaN)
for a JSON input with a truthy non-numeric price, and re-running the
parser on that very output drops the NaN price, so the parser's output
is not a fixed point. -/
theorem measurement_not_idempotent_cex :
    measurementValues (.arr [.str "\x7b\"label\":\"X\",\"price\":\"zz\"\x7d"]) = [measNaN] ∧
    measurementValues (.arr [measToJs measNaN]) = [{ label := .str "X" }] ∧
    ({ label := JsVal.str "X" } : MeasurementOption) ≠ measNaN := by
  refine ⟨rfl, rfl, ?_⟩
  intro hcontra
  have hpr : (none : Option JsNum) = some JsNum.nan :=
    congrArg MeasurementOption.price hcontra
  simp at hpr

theorem exists_of_mem_parseVariantOptions (raw : JsVal) (o : VariantOption)
    (ho : o ∈ parseVariantOptions raw) : ∃ v, parseVariantOne v = some o := by
  cases raw with
  | arr xs =>
    simp only [parseVariantOptions, List.mem_filterMap] at ho
    obtain ⟨v, -, hv⟩ := ho
    exact ⟨v, hv⟩
  | null => simp [parseVariantOptions] at ho
  | undefined => simp [parseVariantOptions] at ho
  | bool b => simp [parseVariantOptions] at ho
  | num n => simp [parseVariantOptions] at ho
  | str t => simp [parseVariantOptions] at ho
  | obj gs => simp [parseVariantOptions] at ho

theorem exists_of_mem_measurementValues (raw : JsVal) (o : MeasurementOption)
    (ho : o ∈ measurementValues raw) : ∃ v, parseMeasurementOne v = some o := by
  cases raw with
  | arr xs =>
    simp only [measurementValues, List.mem_filterMap] at ho
    obtain ⟨v, -, hv⟩ := ho
    exact ⟨v, hv⟩
  | null => simp [measurementValues] at ho
  | undefined => simp [measurementValues] at ho
  | bool b => simp [measurementValues] at ho
  | num n => simp [measurementValues] at ho
  | str t => simp [measurementValues] at ho
  | obj gs => simp [measurementValues] at ho

/-- Every measurement option the parser emits has a truthy label. -/
theorem parseMeasurementOne_some_truthy (v : JsVal) (o : MeasurementOption)
    (h : parseMeasurementOne v = some o) : jsTruthy o.label = true := by
  cases v with
  | str s =>
    have hred : parseMeasurementOne (JsVal.str s) =
        (if !jsTruthy (JsVal.str s) then none
         else if jsTrim s = "" then none
         else if jsonShaped (jsTrim s) then
           match (jsonParse (jsTrim s)).bind measFromJson with
           | some m => some m
           | none => some { label := .str (jsTrim s) }
         else some { label := .str (jsTrim s) }) := rfl
    rw [hred] at h
    split at h
    · exact absurd h (by simp)
    · split at h
      · exact absurd h (by simp)
      · split at h
        · cases hb : (jsonParse (jsTrim s)).bind measFromJson with
          | some m =>
            rw [hb] at h
            dsimp only at h
            rw [Option.some_inj] at h
            subst h
            obtain ⟨parsed, -, hmj⟩ := Option.bind_eq_some.mp hb
            unfold measFromJson at hmj
            split at hmj
            · next hcond =>
              rw [Option.some_inj] at hmj
              subst hmj
              rw [Bool.and_eq_true] at hcond
              exact hcond.2
            · simp at hmj
          | none =>
            rw [hb] at h
            dsimp only at h
            rw [Option.some_inj] at h
            subst h
            simp [jsTruthy]
            assumption
        · rw [Option.some_inj] at h
          subst h
          simp [jsTruthy]
          assumption
  | arr xs =>
    have hred : parseMeasurementOne (JsVal.arr xs) =
        (if !jsTruthy (jsOr (getField (JsVal.arr xs) "label") (.str "")) then none
         else some { label := jsOr (getField (JsVal.arr xs) "label") (.str ""),
                     price := (keepRealPrice (rawPriceOf (JsVal.arr xs))).map JsNum.val }) :=
      rfl
    rw [hred] at h
    split at h
    · exact absurd h (by simp)
    · next hb =>
      rw [Option.some_inj] at h
      subst h
      simpa using hb
  | obj fs =>
    have hred : parseMeasurementOne (JsVal.obj fs) =
        (if !jsTruthy (jsOr (getField (JsVal.obj fs) "label") (.str "")) then none
         else some { label := jsOr (getField (JsVal.obj fs) "label") (.str ""),
                     price := (keepRealPrice (rawPriceOf (JsVal.obj fs))).map JsNum.val }) :=
      rfl
    rw [hred] at h
    split at h
    · exact absurd h (by simp)
    · next hb =>
      rw [Option.some_inj] at h
      subst h
      simpa using hb
  | null => exact absurd h (by rw [show parseMeasurementOne JsVal.null = none from rfl]; simp)
  | undefined => exact absurd h (by rw [show parseMeasurementOne JsVal.undefined = none from rfl]; simp)
  | bool b =>
    have hred : parseMeasurementOne (JsVal.bool b) = none := by
      show (if !jsTruthy (JsVal.bool b) then none else none) = none
      exact ite_self none
    rw [hred] at h
    exact absurd h (by simp)
  | num n =>
    have hred : parseMeasurementOne (JsVal.num n) = none := by
      show (if !jsTruthy (JsVal.num n) then none else none) = none
      exact ite_self none
    rw [hred] at h
    exact absurd h (by simp)

theorem parseVariantOne_varToJs (o : VariantOption)
    (h1 : jsTrim o.label = o.label) (h2 : o.label ≠ "")
    (h3 : ∀ u, o.image_url = some u → 0 < u.length) :
    parseVariantOne (varToJs o) = some o := by
  obtain ⟨label, img, price⟩ := o
  dsimp only at h1 h2 h3
  have hred : parseVariantOne (varToJs ⟨label, img, price⟩) =
      (if variantLabelOfObj (varToJs ⟨label, img, price⟩) = "" then none
       else some { label := variantLabelOfObj (varToJs ⟨label, img, price⟩),
                   image_url := variantImageOfObj (varToJs ⟨label, img, price⟩),
                   price := keepRealPrice (rawPriceOf (varToJs ⟨label, img, price⟩)) }) :=
    rfl
  have hlab : variantLabelOfObj (varToJs ⟨label, img, price⟩) = jsTrim label := rfl
  rw [hred, hlab, h1, if_neg h2]
  have himg : variantImageOfObj (varToJs ⟨label, img, price⟩) = img := by
    cases img with
    | none => rfl
    | some u =>
      have hu := h3 u rfl
      show (if u.length > 0 then some u else none) = some u
      exact if_pos hu
  have hpr : keepRealPrice (rawPriceOf (varToJs ⟨label, img, price⟩)) = price := by
    cases price with
    | none => rfl
    | some q => rfl
  rw [himg, hpr]

theorem parseMeasurementOne_measToJs (o : MeasurementOption)
    (h1 : jsTruthy o.label = true) (h2 : o.price ≠ some JsNum.nan) :
    parseMeasurementOne (measToJs o) = some o := by
  obtain ⟨label, price⟩ := o
  dsimp only at h1 h2
  have hred : parseMeasurementOne (measToJs ⟨label, price⟩) =
      (if !jsTruthy (jsOr (getField (measToJs ⟨label, price⟩) "label") (.str "")) then none
       else some { label := jsOr (getField (measToJs ⟨label, price⟩) "label") (.str ""),
                   price :=
                     (keepRealPrice (rawPriceOf (measToJs ⟨label, price⟩))).map JsNum.val }) :=
    rfl
  have hg : getField (measToJs ⟨label, price⟩) "label" = label := rfl
  have hor : jsOr label (.str "") = label := by simp [jsOr, h1]
  rw [hred, hg, hor, h1]
  rw [if_neg (by simp)]
  have hpr : (keepRealPrice (rawPriceOf (measToJs ⟨label, price⟩))).map JsNum.val = price := by
    cases price with
    | none => rfl
    | some n =>
      cases n with
      | nan => exact absurd rfl h2
      | val q => rfl
  rw [hpr]

/-- C8 (amended): every output of the variant parser is a fixed point:
re-running the parser on the parsed option (as the object it is at
runtime) returns exactly that option.  An output of the measurement
parser is a fixed point whenever its price is not NaN; the measurement
JSON branch can emit a NaN price, and such an output is not a fixed
point (see the counterexample). -/
theorem optionParser_idem (raw : JsVal) :
    (∀ o ∈ parseVariantOptions raw, parseVariantOptions (.arr [varToJs o]) = [o]) ∧
    (∀ o ∈ measurementValues raw, o.price ≠ some JsNum.nan →
      measurementValues (.arr [measToJs o]) = [o]) := by
  constructor
  · intro o ho
    obtain ⟨v, hv⟩ := exists_of_mem_parseVariantOptions raw o ho
    obtain ⟨h1, h2, h3⟩ := parseVariantOne_some v o hv
    have hfix := parseVariantOne_varToJs o h1 h2 h3
    simp [parseVariantOptions, List.filterMap_cons, hfix]
  · intro o ho hnan
    obtain ⟨v, hv⟩ := exists_of_mem_measurementValues raw o ho
    have h1 := parseMeasurementOne_some_truthy v o hv
    have hfix := parseMeasurementOne_measToJs o h1 hnan
    simp [measurementValues, List.filterMap_cons, hfix]

/-- Witness for optionParser_idem on concrete parses: the variant Red
and the measurement 1L at price 5 are fixed points of their parsers. -/
theorem optionParser_idem_witness :
    parseVariantOptions (.arr [varToJs { label := "Red" }]) = [{ label := "Red" }] ∧
    measurementValues (.arr [measToJs { label := .str "1L", price := some (.val 5) }]) =
      [{ label := .str "1L", price := some (.val 5) }] := by
  constructor
  · refine (optionParser_idem (.arr [.str "Red"])).1 { label := "Red" } ?_
    rw [show parseVariantOptions (.arr [.str "Red"]) = [{ label := "Red" }] from rfl]
    exact List.mem_singleton_self _
  · refine (optionParser_idem
      (.arr [.obj [("label", .str "1L"), ("price", .num (.val 5))]])).2
      { label := .str "1L", price := some (.val 5) } ?_ (by simp)
    rw [show measurementValues (.arr [.obj [("label", .str "1L"), ("price", .num (.val 5))]]) =
      [{ label := .str "1L", price := some (.val 5) }] from rfl]
    exact List.mem_singleton_self _

end Storefront
